import Mathlib

/-!
Shallow embedding of the frame-capture pipeline of `ultrasound_data_capture`
(`classes/DataCaptureDisplay.py` together with `constants.py`).

Numeric quantities that Python holds as machine floats (IMU acceleration,
quaternion components) and as ints (frame dimensions, scan depth, counters)
are modelled as `Int`; wall-clock deltas are modelled as `ℚ`.  Python's
`str()` rendering of an integer value is modelled by `intToDec`, and
Python's `int(...)` truncation by `pyInt`.  Fallible operations (file
writes, division that can raise `ZeroDivisionError`) return `Option` or
take explicit success flags.
-/

namespace UDC

/-! ## Decimal text: the model of Python str() on integer-valued fields -/

/-- Character for a single decimal digit value (`0 ↦ '0'`, ..., `9 ↦ '9'`). -/
def digitChar (d : Nat) : Char := Char.ofNat (48 + d)

/-- Is `c` one of `'0'`..`'9'`? -/
def isDigit (c : Char) : Bool := 48 ≤ c.toNat && c.toNat ≤ 57

/-- Fuel-driven digit emitter: prepends the decimal digits of `n` to `acc`.
With fuel ≥ n this produces exactly the decimal digits of `n` (none for 0). -/
def natToDecAux : Nat → Nat → List Char → List Char
  | 0, _, acc => acc
  | fuel + 1, n, acc =>
    if n = 0 then acc else natToDecAux fuel (n / 10) (digitChar (n % 10) :: acc)

/-- Decimal rendering of a natural number, as Python `str` would print it. -/
def natToDec (n : Nat) : List Char := if n = 0 then ['0'] else natToDecAux n n []

/-- Decimal rendering of an integer, as Python `str` would print it. -/
def intToDec (z : Int) : List Char :=
  if z < 0 then '-' :: natToDec z.natAbs else natToDec z.toNat

/-- Parse an unsigned decimal numeral (all characters must be digits). -/
def decToNat (s : List Char) : Option Nat :=
  if s = [] then none
  else if s.all isDigit then
    some (s.foldl (fun a c => 10 * a + (c.toNat - 48)) 0)
  else none

/-- Parse an optionally `'-'`-signed decimal numeral. -/
def decToInt (s : List Char) : Option Int :=
  match s with
  | [] => none
  | c :: cs =>
    if c = '-' then (decToNat cs).map (fun n => -(Int.ofNat n))
    else (decToNat (c :: cs)).map (fun n => Int.ofNat n)

/-! ## The comma-separated log-line grammar -/

/-- Split a character list at every comma (the documented field delimiter). -/
def splitComma : List Char → List (List Char)
  | [] => [[]]
  | c :: cs =>
    match splitComma cs with
    | [] => [[]]
    | t :: ts => if c = ',' then [] :: t :: ts else (c :: t) :: ts

/-- Join token lists with a comma between consecutive tokens. -/
def joinComma : List (List Char) → List Char
  | [] => []
  | [t] => t
  | t :: ts => t ++ ',' :: joinComma ts

/-! ## Constants from constants.py -/

/-- constants.py line 68: `DEFAULT_SCAN_DEPTH = 150`, the depth written to data.txt. -/
def DEFAULT_SCAN_DEPTH : Int := 150

/-- constants.py line 52: `DISPLAY_DIMENSIONS = (1024, 576)`, the fixed (width, height)
the displayed image is resized to. -/
def DISPLAY_DIMENSIONS : Nat × Nat := (1024, 576)

/-! ## The data-log line written by DataCaptureDisplay.record -/

/-- The text line appended to the session data file by `record`
(classes/DataCaptureDisplay.py lines 418-422), rendered exactly as the
source f-string concatenates its pieces.  Numeric fields are modelled as
integers rendered in decimal by `intToDec`. -/
def recordLine (frameName : List Char) (a : Int × Int × Int)
    (q : Int × Int × Int × Int) (w h : Int) : List Char :=
  frameName ++ ",:".toList
    ++ "acc[,".toList ++ intToDec a.1 ++ ",".toList ++ intToDec a.2.1 ++ ",".toList
      ++ intToDec a.2.2 ++ ",]".toList
    ++ "q[,".toList ++ intToDec q.1 ++ ",".toList ++ intToDec q.2.1 ++ ",".toList
      ++ intToDec q.2.2.1 ++ ",".toList ++ intToDec q.2.2.2 ++ ",]".toList
    ++ "dimensions[,".toList ++ intToDec w ++ ",".toList ++ intToDec h ++ ",]".toList
    ++ "depth[,".toList ++ intToDec DEFAULT_SCAN_DEPTH ++ ",]\n".toList

/-- The documented log-line grammar written out from the spec's words (spec §6):
`{frameName},:acc[,{ax},{ay},{az},]q[,{qx},{qy},{qz},{qw},]dimensions[,{width},{height},]depth[,{scanDepth},]`
followed by a newline, all numeric fields as decimal text.  Used only to be
compared against `recordLine`, which is transcribed from the source. -/
def specLogLine (frameName : List Char) (a : Int × Int × Int)
    (q : Int × Int × Int × Int) (w h depth : Int) : List Char :=
  frameName ++ ",:acc[,".toList ++ intToDec a.1 ++ ",".toList ++ intToDec a.2.1
    ++ ",".toList ++ intToDec a.2.2
    ++ ",]q[,".toList ++ intToDec q.1 ++ ",".toList ++ intToDec q.2.1 ++ ",".toList
    ++ intToDec q.2.2.1 ++ ",".toList ++ intToDec q.2.2.2
    ++ ",]dimensions[,".toList ++ intToDec w ++ ",".toList ++ intToDec h
    ++ ",]depth[,".toList ++ intToDec depth ++ ",]".toList ++ "\n".toList

/-- The sixteen comma-delimited tokens of one log line, in order. -/
def logTokens (frameName : List Char) (a : Int × Int × Int)
    (q : Int × Int × Int × Int) (w h : Int) : List (List Char) :=
  [frameName, ":acc[".toList, intToDec a.1, intToDec a.2.1, intToDec a.2.2,
   "]q[".toList, intToDec q.1, intToDec q.2.1, intToDec q.2.2.1, intToDec q.2.2.2,
   "]dimensions[".toList, intToDec w, intToDec h, "]depth[".toList,
   intToDec DEFAULT_SCAN_DEPTH, "]".toList]

/-- One parsed log line. -/
structure LogRecord where
  frameName : List Char
  acc : Int × Int × Int
  quat : Int × Int × Int × Int
  width : Int
  height : Int
  depth : Int
  deriving DecidableEq

/-- Parse the body of a log line (everything before the newline) with the
documented comma-bracket grammar. -/
def parseBody (s : List Char) : Option LogRecord :=
  match splitComma s with
  | [name, l1, a1, a2, a3, l2, q1, q2, q3, q4, l3, w, h, l4, d, l5] =>
    if l1 = ":acc[".toList ∧ l2 = "]q[".toList ∧ l3 = "]dimensions[".toList
        ∧ l4 = "]depth[".toList ∧ l5 = "]".toList then
      match decToInt a1, decToInt a2, decToInt a3, decToInt q1, decToInt q2,
            decToInt q3, decToInt q4, decToInt w, decToInt h, decToInt d with
      | some x1, some x2, some x3, some y1, some y2, some y3, some y4,
        some xw, some xh, some xd =>
        some ⟨name, (x1, x2, x3), (y1, y2, y3, y4), xw, xh, xd⟩
      | _, _, _, _, _, _, _, _, _, _ => none
    else none
  | _ => none

/-- Parse a full log line: it must end with a newline; the body is parsed
with the comma-bracket grammar. -/
def parseLogLine (s : List Char) : Option LogRecord :=
  if s.getLast? = some '\n' then parseBody s.dropLast else none

/-! ## Rate computations -/

/-- Python `int()` truncation toward zero of a rational value. -/
def pyInt (q : ℚ) : Int := if q < 0 then -⌊-q⌋ else ⌊q⌋

/-- Python division, which raises `ZeroDivisionError` on a zero divisor. -/
def pyDiv (a b : ℚ) : Option ℚ := if b = 0 then none else some (a / b)

/-- Acquisition-rate estimate (DataCaptureDisplay.getFramesThread line 328):
`int(1 / signalDt) if signalDt != 0 else 100` — the division is guarded and
a zero elapsed time reports the saturating sentinel 100. -/
def signalFps (dt : ℚ) : Int := if dt ≠ 0 then pyInt (1 / dt) else 100

/-- Preparation-rate estimate (DataCaptureDisplay.resizeFramesThread line 366):
`int(1 / resizeFpsDt)` — unguarded, so a zero elapsed time is a division error. -/
def resizeFps (dt : ℚ) : Option Int := (pyDiv 1 dt).map pyInt

/-! ## Captured IMU values (getFramesThread lines 324-325) -/

/-- `self.imu.acceleration if self.imu.isConnected else [0, 0, 0]`. -/
def capturedAcceleration (imuConnected : Bool) (a : Int × Int × Int) : Int × Int × Int :=
  if imuConnected then a else (0, 0, 0)

/-- `self.imu.quaternion if self.imu.isConnected else [0, 0, 0, 0]`. -/
def capturedQuaternion (imuConnected : Bool) (q : Int × Int × Int × Int) :
    Int × Int × Int × Int :=
  if imuConnected then q else (0, 0, 0, 0)

/-! ## Frames, resize, and events emitted to the GUI thread -/

/-- A raw frame: rows of pixel values. -/
abbrev Frame := List (List Nat)

/-- Encoded frame as handed to the display layer. -/
structure FrameBytes where
  data : Frame
  deriving DecidableEq

/-- Modelled from the spec: `utils.frameToBytes` is not under src/.  The spec
only requires the frame to be "encoded for transport to the display layer";
the encoding is modelled as an opaque injective wrapper. -/
def frameToBytes (f : Frame) : FrameBytes := ⟨f⟩

/-- Interpolation mode passed to the resize routine; the pipeline only ever
uses `utils.INTERPOLATION_NEAREST`. -/
inductive Interpolation where
  | nearest
  deriving DecidableEq

/-- Modelled from the spec: `utils.resizeFrame` is not under src/.  Per spec
section 4.2 it down-samples/resizes the image to a fixed target resolution
using nearest-neighbor interpolation; `dims` is (width, height). -/
def resizeFrame (f : Frame) (dims : Nat × Nat) (interp : Interpolation) : Frame :=
  match interp with
  | Interpolation.nearest =>
    (List.range dims.2).map fun i =>
      (List.range dims.1).map fun j =>
        (f.getD (i * f.length / dims.2) []).getD (j * (f.headD []).length / dims.1) 0

/-- Events written to the main window with `write_event_value`. -/
inductive Event where
  | signalRate (v : Int)
  | resizeRate (v : Int)
  | framesSaved (v : Nat)
  | updateFrame (b : FrameBytes)
  deriving DecidableEq

/-! ## The three stage loops -/

/-- One tick of the body of `resizeFramesThread` (lines 358-369): if the
resize flag is set it is cleared, the raw frame is resized to
`DISPLAY_DIMENSIONS` with nearest-neighbor interpolation, encoded and
emitted, then the rate is computed (unguarded division); otherwise a zero
rate is emitted.  Returns the emitted events and `some` of the new flag
value, or `none` of the flag-already-cleared state when the unguarded rate
division raises and kills the thread. -/
def resizeTick (resizeFlag : Bool) (frameRaw : Frame) (dt : ℚ) :
    List Event × Option Bool :=
  if resizeFlag then
    match resizeFps dt with
    | some v =>
      ([Event.updateFrame (frameToBytes (resizeFrame frameRaw DISPLAY_DIMENSIONS
          Interpolation.nearest)), Event.resizeRate v], some false)
    | none =>
      ([Event.updateFrame (frameToBytes (resizeFrame frameRaw DISPLAY_DIMENSIONS
          Interpolation.nearest))], none)
  else ([Event.resizeRate 0], some resizeFlag)

/-- Per-iteration inputs of `getFramesThread`: the connection flag observed at
the top of the loop, the success flag of `getFrame()`, and the measured
elapsed time of the iteration. -/
structure AcqInput where
  connected : Bool
  res : Bool
  dt : ℚ

/-- The events emitted by `getFramesThread` (lines 314-340) over a finite
schedule of iterations: the loop breaks at the first iteration whose
connection check fails and then emits a final zero rate; an unsuccessful
`getFrame()` emits nothing for that iteration. -/
def getFramesRun : List AcqInput → List Event
  | [] => []
  | i :: is =>
    if i.connected then
      (if i.res then [Event.signalRate (signalFps i.dt)] else []) ++ getFramesRun is
    else [Event.signalRate 0]

/-- Per-tick inputs of `resizeFramesThread`. -/
structure PrepInput where
  connected : Bool
  resizeFlag : Bool
  frameRaw : Frame
  dt : ℚ

/-- The events emitted by `resizeFramesThread` (lines 357-376) over a finite
schedule of ticks: the while-condition is checked at the top of every tick
and a final zero rate is emitted after the loop; a tick whose rate division
raises ends the thread with no further events. -/
def resizeFramesRun : List PrepInput → List Event
  | [] => []
  | i :: is =>
    if i.connected then
      match resizeTick i.resizeFlag i.frameRaw i.dt with
      | (evs, some _) => evs ++ resizeFramesRun is
      | (evs, none) => evs
    else [Event.resizeRate 0]

/-- Per-iteration inputs of `saveFramesThread`: connection flag, save flag,
the millisecond timestamp used in the frame name, the IMU values captured by
the acquisition thread, and the success of the data-log write and of the
image write inside `record`. -/
structure SaveInput where
  connected : Bool
  saveFlag : Bool
  millis : Nat
  acc : Int × Int × Int
  quat : Int × Int × Int × Int
  writeOk : Bool
  imageOk : Bool

/-- Persistence state of one recording session: the frame counter, the lines
successfully appended to data.txt, and the image files successfully saved
(by base name). -/
structure RecState where
  frameGrabCounter : Nat
  logLines : List (List Char)
  imageFiles : List (List Char)
  deriving DecidableEq

/-- `DataCaptureDisplay.record` (lines 405-425): inside one try-block the log
line is written first, then the image file; an exception at either point is
caught and swallowed, so a failed log write persists nothing and a failed
image write persists only the log line.  The state is otherwise unchanged —
in particular `record` never touches the frame counter. -/
def record (st : RecState) (frameName : List Char) (a : Int × Int × Int)
    (q : Int × Int × Int × Int) (w h : Int) (writeOk imageOk : Bool) : RecState :=
  if writeOk then
    let st1 := { st with logLines := st.logLines ++ [recordLine frameName a q w h] }
    if imageOk then { st1 with imageFiles := st1.imageFiles ++ [frameName] } else st1
  else st

/-- One iteration of the body of `saveFramesThread` (lines 391-400): when the
save flag is set, the frame name is built from the counter and timestamp,
`record` is attempted, and the counter is incremented unconditionally
afterwards, its new value emitted as a frames-saved event. -/
def saveStep (w h : Int) (st : RecState) (i : SaveInput) : RecState × List Event :=
  if i.saveFlag then
    let frameName := natToDec st.frameGrabCounter ++ '-' :: natToDec i.millis
    let st1 := record st frameName i.acc i.quat w h i.writeOk i.imageOk
    let st2 := { st1 with frameGrabCounter := st1.frameGrabCounter + 1 }
    (st2, [Event.framesSaved st2.frameGrabCounter])
  else (st, [])

/-- `saveFramesThread` (lines 378-403) over a finite schedule of iterations:
the while-condition is checked at the top of each iteration, and after the
loop the thread only prints — it emits no event at all on termination. -/
def saveFramesRun (w h : Int) (st : RecState) : List SaveInput → RecState × List Event
  | [] => (st, [])
  | i :: is =>
    if i.connected then
      ((saveFramesRun w h (saveStep w h st i).1 is).1,
       (saveStep w h st i).2 ++ (saveFramesRun w h (saveStep w h st i).1 is).2)
    else (st, [])

/-! ## Recording toggle (DataCaptureDisplay.toggleRecording, lines 473-498) -/

/-- The state of `self.currentDataFile`. -/
inductive FileHandle where
  | absent
  | opened
  | closed
  deriving DecidableEq

/-- Recording-related controller state. -/
structure CtrlState where
  enableRecording : Bool
  dataFile : FileHandle
  frameGrabCounter : Nat
  deriving DecidableEq

/-- File operations performed by `toggleRecording`; a close records the
handle state it was invoked on. -/
inductive FileAction where
  | openNew
  | closeHandle (prior : FileHandle)
  deriving DecidableEq

/-- `toggleRecording` flips `enableRecording` first; if the new value is true
it opens a fresh data file and resets the counter to 1, otherwise it closes
the current handle. -/
def toggleRecording (st : CtrlState) : CtrlState × List FileAction :=
  if !st.enableRecording then
    ({ enableRecording := true, dataFile := FileHandle.opened, frameGrabCounter := 1 },
     [FileAction.openNew])
  else
    ({ enableRecording := false, dataFile := FileHandle.closed,
       frameGrabCounter := st.frameGrabCounter },
     [FileAction.closeHandle st.dataFile])

/-- Initial controller state (DataCaptureDisplay.__init__ lines 28-38):
recording disabled, no data file, counter 1. -/
def initCtrlState : CtrlState :=
  { enableRecording := false, dataFile := FileHandle.absent, frameGrabCounter := 1 }

/-- The state and accumulated file actions after `n` presses of the record
toggle, starting from the initial state. -/
def toggleTrace : Nat → CtrlState × List FileAction
  | 0 => (initCtrlState, [])
  | n + 1 =>
    ((toggleRecording (toggleTrace n).1).1,
     (toggleTrace n).2 ++ (toggleRecording (toggleTrace n).1).2)

end UDC

namespace UDC

/-! ## Lemmas about decimal rendering -/

theorem digitChar_toNat : ∀ d : Nat, d < 10 → (digitChar d).toNat = 48 + d := by decide

theorem isDigit_digitChar : ∀ d : Nat, d < 10 → isDigit (digitChar d) = true := by decide

theorem natToDecAux_zero (fuel : Nat) (acc : List Char) : natToDecAux fuel 0 acc = acc := by
  cases fuel <;> simp [natToDecAux]

theorem natToDecAux_acc (fuel : Nat) :
    ∀ (n : Nat) (acc : List Char), natToDecAux fuel n acc = natToDecAux fuel n [] ++ acc := by
  induction fuel with
  | zero => intro n acc; simp [natToDecAux]
  | succ fuel ih =>
    intro n acc
    by_cases h : n = 0
    · simp [natToDecAux, h]
    · simp only [natToDecAux, h, if_false]
      rw [ih (n / 10) (digitChar (n % 10) :: acc), ih (n / 10) [digitChar (n % 10)]]
      simp

theorem natToDecAux_digits (fuel : Nat) :
    ∀ (n : Nat), ∀ c ∈ natToDecAux fuel n [], isDigit c = true := by
  induction fuel with
  | zero => intro n c hc; simp [natToDecAux] at hc
  | succ fuel ih =>
    intro n c hc
    by_cases h : n = 0
    · simp [natToDecAux, h] at hc
    · simp only [natToDecAux, h, if_false] at hc
      rw [natToDecAux_acc] at hc
      rcases List.mem_append.mp hc with h1 | h1
      · exact ih (n / 10) c h1
      · have : c = digitChar (n % 10) := by simpa using h1
        subst this
        exact isDigit_digitChar _ (Nat.mod_lt _ (by norm_num))

theorem natToDecAux_foldl (fuel : Nat) :
    ∀ n : Nat, n ≠ 0 → n ≤ fuel →
      (natToDecAux fuel n []).foldl (fun a c => 10 * a + (c.toNat - 48)) 0 = n := by
  induction fuel with
  | zero => intro n h hle; omega
  | succ fuel ih =>
    intro n h hle
    simp only [natToDecAux, h, if_false]
    rw [natToDecAux_acc]
    rw [List.foldl_append]
    by_cases hq : n / 10 = 0
    · rw [hq, natToDecAux_zero]
      simp only [List.foldl_nil, List.foldl_cons]
      rw [digitChar_toNat _ (Nat.mod_lt _ (by norm_num))]
      omega
    · have hlt : n / 10 ≤ fuel := by
        have := Nat.div_lt_self (Nat.pos_of_ne_zero h) (by norm_num : 1 < 10)
        omega
      rw [ih (n / 10) hq hlt]
      simp only [List.foldl_cons, List.foldl_nil]
      rw [digitChar_toNat _ (Nat.mod_lt _ (by norm_num))]
      omega

theorem natToDec_digits (n : Nat) : ∀ c ∈ natToDec n, isDigit c = true := by
  intro c hc
  by_cases h : n = 0
  · simp [natToDec, h] at hc
    subst hc; decide
  · simp only [natToDec, h, if_false] at hc
    exact natToDecAux_digits n n c hc

theorem natToDec_ne_nil (n : Nat) : natToDec n ≠ [] := by
  by_cases h : n = 0
  · simp [natToDec, h]
  · simp only [natToDec, h, if_false]
    intro hnil
    have := natToDecAux_foldl n n h (Nat.le_refl n)
    rw [hnil] at this
    simp at this
    exact h this.symm

theorem decToNat_natToDec (n : Nat) : decToNat (natToDec n) = some n := by
  by_cases h : n = 0
  · subst h; decide
  · have hne := natToDec_ne_nil n
    have hall : (natToDec n).all isDigit = true := List.all_eq_true.mpr (natToDec_digits n)
    simp only [decToNat, hne, if_false, hall, if_true, if_neg hne]
    simp only [natToDec, h, if_false]
    exact congrArg some (natToDecAux_foldl n n h (Nat.le_refl n))

theorem isDigit_ne_dash {c : Char} (h : isDigit c = true) : ¬ c = '-' := by
  intro hc; subst hc; simp [isDigit] at h

theorem decToInt_intToDec (z : Int) : decToInt (intToDec z) = some z := by
  by_cases hz : z < 0
  · simp only [intToDec, hz, if_true, decToInt, if_pos rfl]
    rw [decToNat_natToDec, Option.map_some']
    congr 1
    simp only [Int.ofNat_eq_coe]
    omega
  · simp only [intToDec, hz, if_false]
    obtain ⟨c, cs, hcs⟩ : ∃ c cs, natToDec z.toNat = c :: cs := by
      cases hl : natToDec z.toNat with
      | nil => exact absurd hl (natToDec_ne_nil _)
      | cons c cs => exact ⟨c, cs, rfl⟩
    rw [hcs]
    have hd : isDigit c = true := by
      have := natToDec_digits z.toNat c
      rw [hcs] at this
      exact this (by simp)
    simp only [decToInt, if_neg (isDigit_ne_dash hd)]
    rw [← hcs, decToNat_natToDec]
    simp only [Option.map_some']
    congr 1
    simp only [Int.ofNat_eq_coe]
    omega

theorem comma_not_mem_natToDec (n : Nat) : ',' ∉ natToDec n := by
  intro hmem
  have := natToDec_digits n ',' hmem
  simp [isDigit] at this

theorem comma_not_mem_intToDec (z : Int) : ',' ∉ intToDec z := by
  intro hmem
  by_cases hz : z < 0
  · simp only [intToDec, hz, if_true] at hmem
    rcases List.mem_cons.mp hmem with h | h
    · exact absurd h (by decide)
    · exact comma_not_mem_natToDec _ h
  · simp only [intToDec, hz, if_false] at hmem
    exact comma_not_mem_natToDec _ hmem

/-! ## Lemmas about the comma grammar -/

theorem splitComma_ne_nil (l : List Char) : splitComma l ≠ [] := by
  induction l with
  | nil => simp [splitComma]
  | cons c cs ih =>
    simp only [splitComma]
    cases h : splitComma cs with
    | nil => simp
    | cons t ts => by_cases hc : c = ',' <;> simp [hc]

theorem splitComma_no_comma (l : List Char) (h : ',' ∉ l) : splitComma l = [l] := by
  induction l with
  | nil => rfl
  | cons c cs ih =>
    have hc : ¬ c = ',' := fun hcc => h (by simp [hcc])
    have hcs : ',' ∉ cs := fun hm => h (by simp [hm])
    simp only [splitComma, ih hcs, if_neg hc]

theorem splitComma_append (l r : List Char) (h : ',' ∉ l) :
    splitComma (l ++ ',' :: r) = l :: splitComma r := by
  induction l with
  | nil =>
    simp only [List.nil_append, splitComma]
    cases hs : splitComma r with
    | nil => exact absurd hs (splitComma_ne_nil r)
    | cons t ts => simp
  | cons c cs ih =>
    have hc : ¬ c = ',' := fun hcc => h (by simp [hcc])
    have hcs : ',' ∉ cs := fun hm => h (by simp [hm])
    simp only [List.cons_append, splitComma, List.append_eq, ih hcs, if_neg hc]

theorem splitComma_joinComma (ts : List (List Char)) :
    ts ≠ [] → (∀ t ∈ ts, ',' ∉ t) → splitComma (joinComma ts) = ts := by
  induction ts with
  | nil => intro h; exact absurd rfl h
  | cons t rest ih =>
    intro _ hall
    cases rest with
    | nil => simpa [joinComma] using splitComma_no_comma t (hall t (by simp))
    | cons t2 ts2 =>
      have h1 : ',' ∉ t := hall t (by simp)
      have hj : joinComma (t :: t2 :: ts2) = t ++ ',' :: joinComma (t2 :: ts2) := rfl
      rw [hj, splitComma_append _ _ h1,
        ih (by simp) (fun x hx => hall x (by simp [hx]))]

theorem recordLine_eq_join (name : List Char) (a : Int × Int × Int)
    (q : Int × Int × Int × Int) (w h : Int) :
    recordLine name a q w h = joinComma (logTokens name a q w h) ++ ['\n'] := by
  simp [recordLine, logTokens, joinComma, List.append_assoc]

theorem logTokens_no_comma (name : List Char) (a : Int × Int × Int)
    (q : Int × Int × Int × Int) (w h : Int) (hname : ',' ∉ name) :
    ∀ t ∈ logTokens name a q w h, ',' ∉ t := by
  intro t ht
  simp only [logTokens, List.mem_cons, List.not_mem_nil, or_false] at ht
  rcases ht with rfl | rfl | rfl | rfl | rfl | rfl | rfl | rfl | rfl | rfl | rfl | rfl |
    rfl | rfl | rfl | rfl <;>
    first
      | exact hname
      | exact comma_not_mem_intToDec _
      | decide

/-- C3: round-trip — for every acceleration triple, quaternion quadruple,
width, height and scan depth (all modelled as integers rendered in decimal
text), parsing the log line written by `record` with the documented
comma-bracket grammar recovers the original frame name and values exactly,
provided the frame name contains no comma (the names the code builds are
digits and a dash). -/
theorem c3_log_line_roundtrip (name : List Char) (a : Int × Int × Int)
    (q : Int × Int × Int × Int) (w h : Int) (hname : ',' ∉ name) :
    parseLogLine (recordLine name a q w h) =
      some ⟨name, a, q, w, h, DEFAULT_SCAN_DEPTH⟩ := by
  rw [recordLine_eq_join]
  simp only [parseLogLine, List.getLast?_concat, List.dropLast_concat, if_pos rfl]
  simp only [parseBody]
  rw [splitComma_joinComma _ (by simp [logTokens]) (logTokens_no_comma name a q w h hname)]
  simp [logTokens, decToInt_intToDec]

/-- Witness for C3 at a concrete frame name and field values. -/
theorem c3_witness :
    (',' ∉ "7-99".toList) ∧
    parseLogLine (recordLine "7-99".toList (1, -2, 3) (4, 5, -6, 7) 640 480) =
      some ⟨"7-99".toList, (1, -2, 3), (4, 5, -6, 7), 640, 480, DEFAULT_SCAN_DEPTH⟩ :=
  ⟨by decide, c3_log_line_roundtrip "7-99".toList (1, -2, 3) (4, 5, -6, 7) 640 480 (by decide)⟩

/-- C2: for every persisted unit, the line appended to the session data log
is exactly the documented template
`{frameName},:acc[,{ax},{ay},{az},]q[,{qx},{qy},{qz},{qw},]dimensions[,{width},{height},]depth[,{scanDepth},]`
followed by a newline, with the scan depth instantiated to
`DEFAULT_SCAN_DEPTH` and all numeric fields rendered as decimal text in
that fixed order. -/
theorem c2_log_line_format (name : List Char) (a : Int × Int × Int)
    (q : Int × Int × Int × Int) (w h : Int) :
    recordLine name a q w h = specLogLine name a q w h DEFAULT_SCAN_DEPTH := by
  simp [recordLine, specLogLine, List.append_assoc]

/-- C4: the acquisition-rate computation is `1 / elapsed`, its division is
guarded so a measured elapsed time of zero (an iteration at or below the
clock resolution) reports the saturating sentinel 100 rather than a
division error, and a positive elapsed time never yields a negative rate. -/
theorem c4_acquisition_rate_guarded :
    signalFps 0 = 100 ∧
    (∀ dt : ℚ, dt ≠ 0 → signalFps dt = pyInt (1 / dt) ∧ pyDiv 1 dt = some (1 / dt)) ∧
    (∀ dt : ℚ, 0 < dt → 0 ≤ signalFps dt) := by
  refine ⟨by simp [signalFps], fun dt hdt => ⟨by simp [signalFps, hdt], by simp [pyDiv, hdt]⟩, ?_⟩
  intro dt hdt
  have h1 : (0:ℚ) < 1 / dt := by positivity
  have hne : dt ≠ 0 := ne_of_gt hdt
  simp only [signalFps, hne, ne_eq, not_false_eq_true, if_true]
  simp only [pyInt, if_neg (not_lt.mpr h1.le)]
  exact Int.le_floor.mpr (by exact_mod_cast h1.le)

/-- Witness for C4 at elapsed time 1/100. -/
theorem c4_witness :
    ((1:ℚ)/100 ≠ 0 ∧ (0:ℚ) < 1/100) ∧
    signalFps ((1:ℚ)/100) = pyInt (1 / ((1:ℚ)/100)) ∧ 0 ≤ signalFps ((1:ℚ)/100) :=
  ⟨⟨by norm_num, by norm_num⟩,
   (c4_acquisition_rate_guarded.2.1 (1/100) (by norm_num)).1,
   c4_acquisition_rate_guarded.2.2 (1/100) (by norm_num)⟩

/-- C10: the preparation stage's rate computation divides 1 by the measured
elapsed time with no guard — at elapsed time exactly zero it is a division
error (`none`), and it is total exactly under the precondition that the
elapsed time is nonzero; the acquisition stage's computation, by contrast,
is guarded and returns the sentinel 100 at zero. -/
theorem c10_resize_rate_unguarded :
    resizeFps 0 = none ∧
    (∀ dt : ℚ, dt ≠ 0 → resizeFps dt = some (pyInt (1 / dt))) ∧
    signalFps 0 = 100 := by
  exact ⟨by simp [resizeFps, pyDiv], fun dt hdt => by simp [resizeFps, pyDiv, hdt],
    by simp [signalFps]⟩

/-- Witness for C10 at elapsed time 1/30. -/
theorem c10_witness :
    ((1:ℚ)/30 ≠ 0) ∧ resizeFps ((1:ℚ)/30) = some (pyInt (1 / ((1:ℚ)/30))) :=
  ⟨by norm_num, c10_resize_rate_unguarded.2.1 (1/30) (by norm_num)⟩

/-- C7: while the IMU is not connected, the captured acceleration is the
zero vector and the captured quaternion is [0,0,0,0], and consequently the
log line persisted for such a capture records acceleration 0,0,0 and
quaternion 0,0,0,0. -/
theorem c7_sensor_absent_defaults (a : Int × Int × Int) (q : Int × Int × Int × Int)
    (name : List Char) (w h : Int) :
    capturedAcceleration false a = (0, 0, 0) ∧
    capturedQuaternion false q = (0, 0, 0, 0) ∧
    recordLine name (capturedAcceleration false a) (capturedQuaternion false q) w h
      = name ++ ",:acc[,0,0,0,]q[,0,0,0,0,]dimensions[,".toList ++ intToDec w
        ++ ",".toList ++ intToDec h ++ ",]depth[,150,]\n".toList := by
  refine ⟨rfl, rfl, ?_⟩
  show recordLine name (0, 0, 0) (0, 0, 0, 0) w h = _
  have h0 : intToDec 0 = ['0'] := rfl
  have h150 : intToDec DEFAULT_SCAN_DEPTH = ['1', '5', '0'] := rfl
  simp [recordLine, h0, h150, List.append_assoc]

/-! ## Lemmas about the persistence loop -/

theorem record_counter (st : RecState) (frameName : List Char) (a : Int × Int × Int)
    (q : Int × Int × Int × Int) (w h : Int) (writeOk imageOk : Bool) :
    (record st frameName a q w h writeOk imageOk).frameGrabCounter = st.frameGrabCounter := by
  by_cases hw : writeOk <;> by_cases hi : imageOk <;> simp [record, hw, hi]

theorem saveStep_counter (w h : Int) (st : RecState) (i : SaveInput) :
    (saveStep w h st i).1.frameGrabCounter
      = st.frameGrabCounter + (if i.saveFlag then 1 else 0) := by
  by_cases hs : i.saveFlag <;> simp [saveStep, hs, record_counter]

theorem saveStep_allSuccess (w h : Int) (st : RecState) (i : SaveInput)
    (hs : i.saveFlag = true) (hw : i.writeOk = true) (hi : i.imageOk = true) :
    (saveStep w h st i).1.frameGrabCounter = st.frameGrabCounter + 1 ∧
    (saveStep w h st i).1.logLines.length = st.logLines.length + 1 ∧
    (saveStep w h st i).1.imageFiles.length = st.imageFiles.length + 1 := by
  simp [saveStep, record, hs, hw, hi]

theorem saveFramesRun_allSuccess (w h : Int) (st : RecState) (is : List SaveInput)
    (hgood : ∀ i ∈ is,
      i.connected = true ∧ i.saveFlag = true ∧ i.writeOk = true ∧ i.imageOk = true) :
    (saveFramesRun w h st is).1.frameGrabCounter = st.frameGrabCounter + is.length ∧
    (saveFramesRun w h st is).1.logLines.length = st.logLines.length + is.length ∧
    (saveFramesRun w h st is).1.imageFiles.length = st.imageFiles.length + is.length := by
  induction is generalizing st with
  | nil => simp [saveFramesRun]
  | cons i is ih =>
    obtain ⟨hc, hs, hw, hi⟩ := hgood i (by simp)
    have ihr := ih ((saveStep w h st i).1) (fun j hj => hgood j (by simp [hj]))
    have hstep := saveStep_allSuccess w h st i hs hw hi
    simp only [saveFramesRun, hc, if_true]
    obtain ⟨e1, e2, e3⟩ := ihr
    obtain ⟨f1, f2, f3⟩ := hstep
    refine ⟨?_, ?_, ?_⟩ <;> simp only [List.length_cons] <;> omega

/-! ## Lemmas about the recording toggle -/

theorem toggleRecording_start (st : CtrlState) (h : st.enableRecording = false) :
    toggleRecording st =
      ({ enableRecording := true, dataFile := FileHandle.opened, frameGrabCounter := 1 },
       [FileAction.openNew]) := by
  simp [toggleRecording, h]

theorem toggleRecording_stop (st : CtrlState) (h : st.enableRecording = true) :
    toggleRecording st =
      ({ enableRecording := false, dataFile := FileHandle.closed,
         frameGrabCounter := st.frameGrabCounter },
       [FileAction.closeHandle st.dataFile]) := by
  simp [toggleRecording, h]

theorem toggleTrace_inv (n : Nat) :
    ((toggleTrace n).1.enableRecording = true →
      (toggleTrace n).1.dataFile = FileHandle.opened) ∧
    (∀ fh, FileAction.closeHandle fh ∈ (toggleTrace n).2 → fh = FileHandle.opened) := by
  induction n with
  | zero => simp [toggleTrace, initCtrlState]
  | succ n ih =>
    obtain ⟨hinv, hact⟩ := ih
    cases hrec : (toggleTrace n).1.enableRecording with
    | false =>
      rw [show toggleTrace (n + 1)
          = ((toggleRecording (toggleTrace n).1).1,
             (toggleTrace n).2 ++ (toggleRecording (toggleTrace n).1).2) from rfl,
        toggleRecording_start _ hrec]
      constructor
      · intro _; rfl
      · intro fh hmem
        rcases List.mem_append.mp hmem with hm | hm
        · exact hact fh hm
        · simp at hm
    | true =>
      rw [show toggleTrace (n + 1)
          = ((toggleRecording (toggleTrace n).1).1,
             (toggleTrace n).2 ++ (toggleRecording (toggleTrace n).1).2) from rfl,
        toggleRecording_stop _ hrec]
      constructor
      · intro hfalse; simp at hfalse
      · intro fh hmem
        rcases List.mem_append.mp hmem with hm | hm
        · exact hact fh hm
        · have : fh = (toggleTrace n).1.dataFile := by simpa using hm
          rw [this, hinv hrec]

/-! ## Claims about the persistence counter and termination signalling -/

/-- C1 counterexample: one processed save request whose data-log write fails
still increments the frame counter, so the counter (2) differs from the
count of successfully written log lines plus the initial offset (0 + 1). -/
theorem c1_counterexample :
    (saveFramesRun 640 480 ⟨1, [], []⟩
        [⟨true, true, 0, (0, 0, 0), (0, 0, 0, 0), false, false⟩]).1.frameGrabCounter = 2 ∧
    (saveFramesRun 640 480 ⟨1, [], []⟩
        [⟨true, true, 0, (0, 0, 0), (0, 0, 0, 0), false, false⟩]).1.logLines.length = 0 ∧
    (saveFramesRun 640 480 ⟨1, [], []⟩
        [⟨true, true, 0, (0, 0, 0), (0, 0, 0, 0), false, false⟩]).1.frameGrabCounter ≠
      (saveFramesRun 640 480 ⟨1, [], []⟩
        [⟨true, true, 0, (0, 0, 0), (0, 0, 0, 0), false, false⟩]).1.logLines.length + 1 := by
  refine ⟨rfl, rfl, by decide⟩

/-- C1 (amended): the frame counter advances once per processed save
request, regardless of whether the image write or the data-log append
succeeded — a failed write still increments it — so the counter equals the
initial offset plus the number of processed save requests, not the number
of successful log writes. -/
theorem c1_counter_advances_per_attempt (w h : Int) (st : RecState)
    (is : List SaveInput) (hconn : ∀ i ∈ is, i.connected = true) :
    (saveFramesRun w h st is).1.frameGrabCounter
      = st.frameGrabCounter + is.countP (fun i => i.saveFlag) := by
  induction is generalizing st with
  | nil => simp [saveFramesRun]
  | cons i is ih =>
    have hc : i.connected = true := hconn i (by simp)
    simp only [saveFramesRun, hc, if_true]
    rw [ih _ (fun j hj => hconn j (by simp [hj])), saveStep_counter]
    rw [List.countP_cons]
    by_cases hs : i.saveFlag = true
    · simp [hs]
      try omega
    · simp [hs]
      try omega

/-- Witness for C1 (amended) on one connected iteration with a failing
write: the counter still ends at 1 + 1. -/
theorem c1_witness :
    (∀ i ∈ ([⟨true, true, 7, (1, 2, 3), (4, 5, 6, 7), false, true⟩] : List SaveInput),
      i.connected = true) ∧
    (saveFramesRun 640 480 ⟨1, [], []⟩
        [⟨true, true, 7, (1, 2, 3), (4, 5, 6, 7), false, true⟩]).1.frameGrabCounter
      = 1 + ([⟨true, true, 7, (1, 2, 3), (4, 5, 6, 7), false, true⟩] : List SaveInput).countP
          (fun i => i.saveFlag) :=
  ⟨by decide, c1_counter_advances_per_attempt 640 480 ⟨1, [], []⟩ _ (by decide)⟩

/-- C5 counterexample: at the iteration whose connection check fails, the
persistence loop terminates emitting no event at all — in particular it
does not signal its termination with a rate of zero. -/
theorem c5_counterexample :
    (saveFramesRun 640 480 ⟨1, [], []⟩
        [⟨false, true, 0, (0, 0, 0), (0, 0, 0, 0), true, true⟩]).2 = [] := rfl

/-- C5 (amended): when the frame source's connected flag becomes false, each
of the three stage loops exits at its next iteration check; the acquisition
and preparation stages signal their termination by reporting a rate of
zero, while the persistence stage exits without emitting any event. -/
theorem c5_termination_signals (i : AcqInput) (is : List AcqInput)
    (j : PrepInput) (js : List PrepInput) (k : SaveInput) (ks : List SaveInput)
    (w h : Int) (st : RecState)
    (hi : i.connected = false) (hj : j.connected = false) (hk : k.connected = false) :
    getFramesRun (i :: is) = [Event.signalRate 0] ∧
    resizeFramesRun (j :: js) = [Event.resizeRate 0] ∧
    saveFramesRun w h st (k :: ks) = (st, []) := by
  refine ⟨?_, ?_, ?_⟩ <;> simp [getFramesRun, resizeFramesRun, saveFramesRun, hi, hj, hk]

/-- Witness for C5 (amended) at concrete disconnected inputs. -/
theorem c5_witness :
    ((⟨false, false, 1⟩ : AcqInput).connected = false) ∧
    getFramesRun [⟨false, false, 1⟩] = [Event.signalRate 0] ∧
    resizeFramesRun [⟨false, false, [], 1⟩] = [Event.resizeRate 0] ∧
    saveFramesRun 640 480 ⟨1, [], []⟩
        [⟨false, false, 0, (0, 0, 0), (0, 0, 0, 0), true, true⟩]
      = (⟨1, [], []⟩, []) := by
  have h := c5_termination_signals ⟨false, false, 1⟩ [] ⟨false, false, [], 1⟩ []
    ⟨false, false, 0, (0, 0, 0), (0, 0, 0, 0), true, true⟩ [] 640 480 ⟨1, [], []⟩ rfl rfl rfl
  exact ⟨rfl, h.1, h.2.1, h.2.2⟩

/-- C6 counterexample: invoking the record toggle — the code's only
stop-recording operation — while no recording is active is not a no-op: it
changes the state (recording becomes enabled, a fresh log handle is opened,
the frame counter is reset to 1). -/
theorem c6_counterexample :
    (toggleRecording ⟨false, FileHandle.absent, 7⟩).1 ≠ ⟨false, FileHandle.absent, 7⟩ := by
  decide

/-- C6 (amended): the code exposes only a toggle; invoking it while no
recording is active starts a new recording (opens a fresh log handle,
resets the counter to 1) rather than acting as a no-op, and along any
sequence of toggles from the initial state every close action is performed
on an open handle — never on an absent or already-closed one. -/
theorem c6_toggle_behavior :
    (∀ st : CtrlState, st.enableRecording = false →
      toggleRecording st =
        ({ enableRecording := true, dataFile := FileHandle.opened, frameGrabCounter := 1 },
         [FileAction.openNew])) ∧
    (∀ n : Nat, ∀ fh : FileHandle,
      FileAction.closeHandle fh ∈ (toggleTrace n).2 → fh = FileHandle.opened) :=
  ⟨toggleRecording_start, fun n => (toggleTrace_inv n).2⟩

/-- Witness for C6 (amended) at the initial state and a two-toggle trace. -/
theorem c6_witness :
    (initCtrlState.enableRecording = false ∧
      FileAction.closeHandle FileHandle.opened ∈ (toggleTrace 2).2) ∧
    toggleRecording initCtrlState =
      ({ enableRecording := true, dataFile := FileHandle.opened, frameGrabCounter := 1 },
       [FileAction.openNew]) ∧
    FileHandle.opened = FileHandle.opened :=
  ⟨⟨rfl, by decide⟩, c6_toggle_behavior.1 initCtrlState rfl,
    c6_toggle_behavior.2 2 FileHandle.opened (by decide)⟩

/-- C8: starting a recording resets the session frame counter to 1, and
after N save requests are processed with every write succeeding, the
counter equals N + 1 (next-to-use) with exactly N log lines and N image
files written. -/
theorem c8_counter_and_files (st : CtrlState) (w h : Int) (is : List SaveInput)
    (hstart : st.enableRecording = false)
    (hgood : ∀ i ∈ is,
      i.connected = true ∧ i.saveFlag = true ∧ i.writeOk = true ∧ i.imageOk = true) :
    (toggleRecording st).1.frameGrabCounter = 1 ∧
    (saveFramesRun w h ⟨1, [], []⟩ is).1.frameGrabCounter = is.length + 1 ∧
    (saveFramesRun w h ⟨1, [], []⟩ is).1.logLines.length = is.length ∧
    (saveFramesRun w h ⟨1, [], []⟩ is).1.imageFiles.length = is.length := by
  obtain ⟨h1, h2, h3⟩ := saveFramesRun_allSuccess w h ⟨1, [], []⟩ is hgood
  simp only [List.length_nil] at h1 h2 h3
  refine ⟨by rw [toggleRecording_start st hstart], ?_, ?_, ?_⟩ <;> omega

/-- Witness for C8 with 10 successful save requests: counter 11, 10 log
lines, 10 image files. -/
theorem c8_witness :
    (initCtrlState.enableRecording = false ∧
      ∀ i ∈ List.replicate 10
          (⟨true, true, 0, (0, 0, 0), (0, 0, 0, 0), true, true⟩ : SaveInput),
        i.connected = true ∧ i.saveFlag = true ∧ i.writeOk = true ∧ i.imageOk = true) ∧
    (toggleRecording initCtrlState).1.frameGrabCounter = 1 ∧
    (saveFramesRun 640 480 ⟨1, [], []⟩ (List.replicate 10
        ⟨true, true, 0, (0, 0, 0), (0, 0, 0, 0), true, true⟩)).1.frameGrabCounter
      = (List.replicate 10
          (⟨true, true, 0, (0, 0, 0), (0, 0, 0, 0), true, true⟩ : SaveInput)).length + 1 ∧
    (saveFramesRun 640 480 ⟨1, [], []⟩ (List.replicate 10
        ⟨true, true, 0, (0, 0, 0), (0, 0, 0, 0), true, true⟩)).1.logLines.length
      = (List.replicate 10
          (⟨true, true, 0, (0, 0, 0), (0, 0, 0, 0), true, true⟩ : SaveInput)).length ∧
    (saveFramesRun 640 480 ⟨1, [], []⟩ (List.replicate 10
        ⟨true, true, 0, (0, 0, 0), (0, 0, 0, 0), true, true⟩)).1.imageFiles.length
      = (List.replicate 10
          (⟨true, true, 0, (0, 0, 0), (0, 0, 0, 0), true, true⟩ : SaveInput)).length :=
  ⟨⟨rfl, by decide⟩, c8_counter_and_files initCtrlState 640 480 _ rfl (by decide)⟩

/-- C9: one preparation tick with the display-requested flag set clears the
flag, resizes the latest raw frame to the fixed `DISPLAY_DIMENSIONS` with
nearest-neighbor interpolation, encodes it and emits it (followed by the
measured rate when the elapsed time is nonzero); a tick with the flag clear
emits the zero/idle rate signal. -/
theorem c9_preparation_tick (raw : Frame) (dt : ℚ) :
    resizeTick false raw dt = ([Event.resizeRate 0], some false) ∧
    (dt ≠ 0 → resizeTick true raw dt =
      ([Event.updateFrame (frameToBytes (resizeFrame raw DISPLAY_DIMENSIONS
          Interpolation.nearest)),
        Event.resizeRate (pyInt (1 / dt))], some false)) := by
  constructor
  · rfl
  · intro hdt
    simp [resizeTick, resizeFps, pyDiv, hdt]

/-- Witness for C9 at a one-pixel frame and elapsed time 1/2. -/
theorem c9_witness :
    ((1:ℚ)/2 ≠ 0) ∧
    resizeTick true [[1]] ((1:ℚ)/2) =
      ([Event.updateFrame (frameToBytes (resizeFrame [[1]] DISPLAY_DIMENSIONS
          Interpolation.nearest)),
        Event.resizeRate (pyInt (1 / ((1:ℚ)/2)))], some false) :=
  ⟨by norm_num, (c9_preparation_tick [[1]] (1/2)).2 (by norm_num)⟩

end UDC
